import Mathlib

/-!
A verification development for the `incrstruct` crate: self-referencing
structs built by two-phase initialization.

The embedding has two layers, both translated from the source:

* a runtime layer (`Header`, `Obj`, `initGo`, `force_init`, `ensure_init`,
  `drop_uninit_in_place`, `new_box`, `new_rc`) modelling `src/src/lib.rs`
  together with the loops the derive macro generates into `init` and
  `drop_tail_in_place` (`src/incrstruct_derive/src/lib.rs`, `init_field_calls`
  and the `drop_tail_in_place` body);
* a derivation layer (`Field`, `Input`, `incr_struct`, `find_borrows_fields`,
  `initArgsGo`) modelling the shape validation and dependency resolution of
  `incr_struct` in `src/incrstruct_derive/src/lib.rs`.

Conventions: a struct instance is an `Obj` holding the Head field values in
declaration order, the Tail field slots in declaration order (`none` for an
uninitialized slot), and the header tag.  The generated fallible `init`
processes Tail fields in reverse declaration order (the derive macro reverses
the field list), so the Tail with declaration index `n-1` is built first and
index `0` last.  Operations additionally return the list of observable
events (constructor invocations and field destructions) so that "destroys
exactly these fields, in this order" claims can be stated.
-/

namespace Incr

/-- Embeds `incrstruct::Header` (src/src/lib.rs:366-370): the per-instance
lifecycle tag `Uninited` / `Initing` / `Inited`. -/
inductive Header where
  | uninited
  | initing
  | inited
deriving DecidableEq, Repr

/-- An instance of a derived struct: Head field values in declaration order,
Tail field storage in declaration order (`none` = the slot was never written
or has been dropped), and the header tag.  This is the state the generated
code manipulates through raw pointers. -/
structure Obj (α β : Type) where
  heads : List α
  tails : List (Option β)
  hdr : Header
deriving DecidableEq, Repr

/-- Observable events of a run: a Tail constructor invocation
(`init_field_X`), a Tail field drop, a Head field drop, and the drop of the
header field.  Indices are declaration indices. -/
inductive Event (α β : Type) where
  | ctorCall (declIdx : Nat)
  | tailDrop (declIdx : Nat) (v : β)
  | headDrop (declIdx : Nat) (v : α)
  | hdrDrop
deriving DecidableEq, Repr

/-- Result of the generated `init`: success, or a constructor error together
with the struct state left behind. -/
inductive IResult (ε α β : Type) where
  | ok (o : Obj α β)
  | fail (e : ε) (o : Obj α β)
deriving DecidableEq, Repr

/-- Result of `force_init` / `ensure_init`: success, a constructor error, or
a fatal contract violation (a Rust `panic!`), each with the resulting state. -/
inductive FResult (ε α β : Type) where
  | ok (o : Obj α β)
  | fail (e : ε) (o : Obj α β)
  | fatal (msg : String) (o : Obj α β)
deriving DecidableEq, Repr

/-- Result of `drop_uninit_in_place`: normal completion or a fatal contract
violation (a Rust `panic!`). -/
inductive DropResult where
  | ok
  | panicked (msg : String)
deriving DecidableEq, Repr

/-- The struct state carried by an `IResult`, on both the success and the
error path. -/
def iObj {ε α β : Type} : IResult ε α β → Obj α β
  | IResult.ok o => o
  | IResult.fail _ o => o

/-- A family of generated Tail constructors: `ctors i o` is
`init_field_X(&o.dep1, …)` for the Tail field with declaration index `i`,
reading the current state `o`.  The real constructor only receives references
to its declared dependencies; giving it the whole object is a sound
generalization (every dependency-restricted constructor is an instance). -/
def Ctors (ε α β : Type) : Type := Nat → Obj α β → Except ε β

/-- Embeds the generated `drop_tail_in_place` loop
(src/incrstruct_derive/src/lib.rs:221-223): walk the Tail slots in
declaration order; while the cutoff is nonzero skip the slot and decrement,
once it reaches zero drop every remaining slot.  `idx` is the declaration
index of the first slot in the list. -/
def dropTailGo {α β : Type} : List (Option β) → Nat → Nat → List (Option β) × List (Event α β)
  | [], _, _ => ([], [])
  | t :: ts, idx, cut =>
    if cut = 0 then
      let r := dropTailGo ts (idx + 1) 0
      (none :: r.1, (match t with
        | some v => [Event.tailDrop idx v]
        | none => []) ++ r.2)
    else
      let r := dropTailGo ts (idx + 1) (cut - 1)
      (t :: r.1, r.2)

/-- Embeds `IncrStructInit::drop_tail_in_place(this, at)`
(src/src/lib.rs:388 together with the generated body): drops Tail fields
starting at declaration index `cut`, in declaration order. -/
def drop_tail_in_place {α β : Type} (o : Obj α β) (cut : Nat) : Obj α β × List (Event α β) :=
  let r := dropTailGo o.tails 0 cut
  ({ o with tails := r.1 }, r.2)

/-- Embeds the generated fallible `init_field_calls` loop
(src/incrstruct_derive/src/lib.rs:131-156).  With `m` Tail fields still to
process, the current one has declaration index `m - 1` and the rollback
cutoff `at` equals `m`: processing runs in reverse declaration order, `at`
starts at the number of Tail fields and is decremented after every success,
and on a constructor error `drop_tail_in_place` is called with the current
`at`, destroying exactly the already-built declaration-order suffix. -/
def initGo {ε α β : Type} (ctors : Ctors ε α β) : Nat → Obj α β → IResult ε α β × List (Event α β)
  | 0, o => (IResult.ok o, [])
  | m + 1, o =>
    match ctors m o with
    | Except.ok v =>
      let r := initGo ctors m { o with tails := o.tails.set m (some v) }
      (r.1, Event.ctorCall m :: r.2)
    | Except.error e =>
      let d := drop_tail_in_place o (m + 1)
      (IResult.fail e d.1, Event.ctorCall m :: d.2)

/-- Embeds the generated `IncrStructInit::init` (src/src/lib.rs:383 with the
generated body at src/incrstruct_derive/src/lib.rs:207-213): runs the
constructor loop over all Tail fields. -/
def init {ε α β : Type} (ctors : Ctors ε α β) (o : Obj α β) : IResult ε α β × List (Event α β) :=
  initGo ctors o.tails.length o

/-- The shared tail of `force_init` (src/src/lib.rs:510-527): set the header
to `Initing`, run `init`, and on success set it to `Inited`.  On a
constructor error the error is propagated and the header is left as
`Initing`.  `evs0` are the events of the teardown that may precede this. -/
def forceGo {ε α β : Type} (ctors : Ctors ε α β) (o : Obj α β) (evs0 : List (Event α β)) :
    FResult ε α β × List (Event α β) :=
  match init ctors { o with hdr := Header.initing } with
  | (IResult.ok o2, evs) => (FResult.ok { o2 with hdr := Header.inited }, evs0 ++ evs)
  | (IResult.fail e o2, evs) => (FResult.fail e o2, evs0 ++ evs)

/-- Embeds `incrstruct::force_init` (src/src/lib.rs:499-528): `Uninited`
proceeds directly, `Inited` first tears down every Tail field with
`drop_tail_in_place(this, 0)`, and `Initing` is the fatal reentrancy
violation `panic!("Recursive call to force_init")`. -/
def force_init {ε α β : Type} (ctors : Ctors ε α β) (o : Obj α β) :
    FResult ε α β × List (Event α β) :=
  match o.hdr with
  | Header.initing => (FResult.fatal "Recursive call to force_init" o, [])
  | Header.uninited => forceGo ctors o []
  | Header.inited =>
    let d := drop_tail_in_place o 0
    forceGo ctors d.1 d.2

/-- Embeds `incrstruct::ensure_init` (src/src/lib.rs:461-472): if the header
is `Inited` the object is returned unchanged, otherwise it delegates to
`force_init`. -/
def ensure_init {ε α β : Type} (ctors : Ctors ε α β) (o : Obj α β) :
    FResult ε α β × List (Event α β) :=
  match o.hdr with
  | Header.inited => (FResult.ok o, [])
  | _ => force_init ctors o

/-- Embeds `incrstruct::drop_uninit_in_place` (src/src/lib.rs:479-493)
composed with the generated head-dropping closure
(src/incrstruct_derive/src/lib.rs:174-183): on `Uninited` it drops every Head
field in declaration order and then the header field; on `Inited` or
`Initing` it panics without dropping anything. -/
def drop_uninit_in_place {α β : Type} (o : Obj α β) : DropResult × List (Event α β) :=
  match o.hdr with
  | Header.uninited =>
    (DropResult.ok, (o.heads.enum.map fun p => Event.headDrop p.1 p.2) ++ [Event.hdrDrop])
  | Header.inited => (DropResult.panicked "drop_uninit_in_place on initialized value", [])
  | Header.initing => (DropResult.panicked "drop_uninit_in_place during initialization", [])

/-- Embeds `incrstruct::new_box` (src/src/lib.rs:400-409).  The function
moves the partially initialized value into a fresh `Box`, releases RAII
control of it with `Box::into_raw`, and calls `ensure_init` with the `?`
operator.  On success `Box::from_raw` re-takes ownership of the allocation.
On the error path the `?` operator returns at once: `drop_uninit_in_place`
is never called and the `Box` is never rebuilt from the raw pointer.  The
final `Bool` records whether ownership of the heap allocation was
re-established before returning (`true` on success, `false` when the error
or a panic path abandons the raw pointer). -/
def new_box {ε α β : Type} (ctors : Ctors ε α β) (o : Obj α β) :
    FResult ε α β × List (Event α β) × Bool :=
  match ensure_init ctors o with
  | (FResult.ok o2, evs) => (FResult.ok o2, evs, true)
  | (FResult.fail e o2, evs) => (FResult.fail e o2, evs, false)
  | (FResult.fatal m o2, evs) => (FResult.fatal m o2, evs, false)

/-- Embeds `incrstruct::new_rc` (src/src/lib.rs:416-426), which is the same
code path as `new_box` with `Rc` in place of `Box`: on the error path the
`?` operator abandons the pointer obtained from `Rc::into_raw` without
releasing the allocation or the Head fields. -/
def new_rc {ε α β : Type} (ctors : Ctors ε α β) (o : Obj α β) :
    FResult ε α β × List (Event α β) × Bool :=
  match ensure_init ctors o with
  | (FResult.ok o2, evs) => (FResult.ok o2, evs, true)
  | (FResult.fail e o2, evs) => (FResult.fail e o2, evs, false)
  | (FResult.fatal m o2, evs) => (FResult.fatal m o2, evs, false)

/-- Whether an event is a Head field drop. -/
def isHeadDrop {α β : Type} : Event α β → Bool
  | Event.headDrop _ _ => true
  | _ => false

/-- Whether an event is a Tail field drop. -/
def isTailDrop {α β : Type} : Event α β → Bool
  | Event.tailDrop _ _ => true
  | _ => false

/-- The concrete fallible shape of the test suite
(src/tests/derive_test.rs, module `init_err`): Head fields
`head1 = 42` and `head2`, Tail fields `c` (declaration index 0, borrows `b`
and `head2`) and `b` (declaration index 1, borrows `head1`).
`init_field_b` returns `head1`'s value; `init_field_c` fails with the shared
error whenever `head2 == 18` and otherwise returns `b`'s value. -/
def exCtors : Ctors Unit Int Int := fun i o =>
  if i = 1 then Except.ok (o.heads.getD 0 0)
  else if o.heads.getD 1 0 = 18 then Except.error ()
  else Except.ok ((o.tails.getD 1 none).getD 0)

/-- A fresh instance of the test shape whose `head2` value `18` makes
`init_field_c` fail: `AStruct::new_box(18, RefCell::new(42))`. -/
def exObjFail : Obj Int Int := ⟨[42, 18], [none, none], Header.uninited⟩

/-- A fresh instance of the test shape whose `head2` value `4711` lets every
constructor succeed: `AStruct::new_box(4711, RefCell::new(42))`. -/
def exObjOk : Obj Int Int := ⟨[42, 4711], [none, none], Header.uninited⟩

/-- An instance of the test shape in the `Inited` state, as produced by a
successful `force_init` on `exObjOk`. -/
def exInitedObj : Obj Int Int := ⟨[42, 4711], [some 42, some 42], Header.inited⟩

/-- An instance of the test shape caught in the `Initing` state. -/
def exInitingObj : Obj Int Int := ⟨[42, 4711], [none, none], Header.initing⟩

/-- An `Inited` instance of the test shape whose Head field `head1` was
mutated to `100` after construction, so its Tail values `42` are stale. -/
def exChangedObj : Obj Int Int := ⟨[100, 4711], [some 42, some 42], Header.inited⟩

/-- A declared field as the derive macro sees it: its name, whether it carries
the `#[header]` attribute, and its `#[borrows(…)]` attribute (`some deps`
marks a Tail field, `none` a Head field).  Mirrors what
`has_attribute`/`get_borrows` extract from a `syn::Field`. -/
structure Field where
  name : String
  isHeader : Bool
  borrows : Option (List String)
deriving DecidableEq, Repr

/-- Whether a field carries the `#[borrows(…)]` attribute, i.e. is a Tail
field (`find_phase`, src/incrstruct_derive/src/lib.rs:376-382). -/
def hasBorrows (f : Field) : Bool := f.borrows.isSome

/-- The derive input shape, as classified at the top of `incr_struct`
(src/incrstruct_derive/src/lib.rs:25-31 and `get_named_fields` at 384-393):
a struct with named fields, a tuple struct, a unit struct, an enum, or a
union. -/
inductive Input where
  | structNamed (fields : List Field)
  | structTuple
  | structUnit
  | enumData
  | unionData
deriving DecidableEq, Repr

/-- Embeds `get_named_fields` (src/incrstruct_derive/src/lib.rs:384-393):
only a struct with named fields yields its field list; every other shape
yields the empty list. -/
def get_named_fields : Input → List Field
  | Input.structNamed fs => fs
  | _ => []

/-- The derivation-time errors `incr_struct` can report, one constructor per
`Error::new…` site in src/incrstruct_derive/src/lib.rs: `notAStruct` for
line 31, `missingHeaderField` for line 45-48, `headerNotLast` for line 36-41
and `unknownDependency` for the combined errors of lines 317-330. -/
inductive DeriveError where
  | notAStruct
  | missingHeaderField
  | headerNotLast (name : String)
  | unknownDependency (names : List String)
deriving DecidableEq, Repr

/-- Embeds `find_borrows_fields` (src/incrstruct_derive/src/lib.rs:340-355):
walk the candidate fields in order, keeping each whose name is still in the
borrow set and removing that name from the set; return the kept fields in
candidate order together with the names left unresolved. -/
def find_borrows_fields : List Field → List String → List Field × List String
  | [], bs => ([], bs)
  | f :: fs, bs =>
    if f.name ∈ bs then
      let r := find_borrows_fields fs (bs.erase f.name)
      (f :: r.1, r.2)
    else
      find_borrows_fields fs bs

/-- Embeds the loop of `make_init_field_decls_and_args`
(src/incrstruct_derive/src/lib.rs:284-338) restricted to what the claims
need: walk the processing-order field list (`rest`), keeping in `pre` the
fields already passed (`fields[..i]`, the fields declared strictly after the
current one, header excluded).  For every Tail field its borrow names are
deduplicated (`HashSet::from_iter` in `get_borrows`) and resolved against
`pre` by `find_borrows_fields`; the first Tail with unresolved names aborts
with those names (the `?` operator), otherwise the resolved parameter lists
are collected in processing order. -/
def initArgsGo : List Field → List Field → Except (List String) (List (List Field))
  | _, [] => Except.ok []
  | pre, f :: rest =>
    match f.borrows with
    | none => initArgsGo (pre ++ [f]) rest
    | some bs =>
      let r := find_borrows_fields pre bs.dedup
      if r.2 = [] then
        match initArgsGo (pre ++ [f]) rest with
        | Except.ok args => Except.ok (r.1 :: args)
        | Except.error m => Except.error m
      else
        Except.error r.2

/-- The pieces of the generated construction protocol the claims are about:
the header field name, the Head and Tail fields in processing (reverse
declaration) order, the per-Tail resolved constructor parameter lists in
processing order, and the declaration-order drop name lists. -/
structure Generated where
  headerName : String
  heads : List Field
  tails : List Field
  initFieldArgs : List (List Field)
  dropHeadNames : List String
  dropTailNames : List String
deriving DecidableEq, Repr

/-- The processing-order field list: the declared fields without the final
header field, reversed (src/incrstruct_derive/src/lib.rs:57). -/
def revFields (fs : List Field) : List Field := fs.dropLast.reverse

/-- The body of `incr_struct` after the struct check
(src/incrstruct_derive/src/lib.rs:33-231): pop the last field (`fields.pop`;
no field at all is the "missing #[header] field" error, a last field without
`#[header]` is the "missing #[header] attribute on last field" error);
reverse the remaining fields into processing order; resolve every Tail
field's borrows against the fields declared strictly after it; on success
emit the construction protocol. -/
def incr_structFields (fields : List Field) : Except DeriveError Generated :=
  match fields.getLast? with
  | none => Except.error DeriveError.missingHeaderField
  | some header =>
    if header.isHeader then
      match initArgsGo [] (revFields fields) with
      | Except.error missing => Except.error (DeriveError.unknownDependency missing)
      | Except.ok args =>
        Except.ok
          { headerName := header.name
            heads := (revFields fields).filter fun f => !hasBorrows f
            tails := (revFields fields).filter hasBorrows
            initFieldArgs := args
            dropHeadNames := (((revFields fields).filter fun f => !hasBorrows f).map
              Field.name).reverse
            dropTailNames := (((revFields fields).filter hasBorrows).map
              Field.name).reverse }
    else
      Except.error (DeriveError.headerNotLast header.name)

/-- Embeds `incr_struct` (src/incrstruct_derive/src/lib.rs:25-231): enums and
unions are rejected as "IncrStruct can only be used on structs"; every other
shape feeds the named fields it has (`get_named_fields` gives `[]` for tuple
and unit structs) into the header check and dependency resolution. -/
def incr_struct (input : Input) : Except DeriveError Generated :=
  match input with
  | Input.enumData => Except.error DeriveError.notAStruct
  | Input.unionData => Except.error DeriveError.notAStruct
  | _ => incr_structFields (get_named_fields input)

/-- The declared fields of the fallible test shape
(src/tests/derive_test.rs, module `init_err`), in declaration order:
`c` borrows `b` and `head2`, `b` borrows `head1`, then the two Head fields
and the header field. -/
def exStructFields : List Field :=
  [⟨"c", false, some ["b", "head2"]⟩,
   ⟨"b", false, some ["head1"]⟩,
   ⟨"head1", false, none⟩,
   ⟨"head2", false, none⟩,
   ⟨"hdr", true, none⟩]

/-- A shape whose Tail field `c` names a dependency `nope` that no later
field declares. -/
def exMissingFields : List Field :=
  [⟨"c", false, some ["nope"]⟩,
   ⟨"head1", false, none⟩,
   ⟨"hdr", true, none⟩]

/-- A shape with two `#[header]`-marked fields, the second one declared
last. -/
def exTwoHeaders : List Field :=
  [⟨"a", true, none⟩,
   ⟨"hdr", true, none⟩]

/-- The protocol generated for the test shape (checked by evaluation below):
processing order is `head2, head1, b, c`; `b`'s constructor receives
`head1`, `c`'s receives `head2` then `b` — matching the parameter order of
`AStructInit` in src/tests/derive_test.rs. -/
def exGenerated : Generated :=
  match incr_struct (Input.structNamed exStructFields) with
  | Except.ok g => g
  | Except.error _ =>
    { headerName := "", heads := [], tails := [], initFieldArgs := [],
      dropHeadNames := [], dropTailNames := [] }

/-! Sanity evaluations of the embedding on the test-suite shape. -/

example : force_init exCtors exObjOk =
    (FResult.ok ⟨[42, 4711], [some 42, some 42], Header.inited⟩,
      [Event.ctorCall 1, Event.ctorCall 0]) := by decide

example : force_init exCtors exObjFail =
    (FResult.fail () ⟨[42, 18], [none, none], Header.initing⟩,
      [Event.ctorCall 1, Event.ctorCall 0, Event.tailDrop 1 42]) := by decide

example : new_box exCtors exObjFail =
    (FResult.fail () ⟨[42, 18], [none, none], Header.initing⟩,
      [Event.ctorCall 1, Event.ctorCall 0, Event.tailDrop 1 42], false) := by decide

example : incr_struct (Input.structNamed exStructFields) = Except.ok exGenerated := rfl

example : exGenerated.tails = [⟨"b", false, some ["head1"]⟩, ⟨"c", false, some ["b", "head2"]⟩] := by
  decide

example : exGenerated.initFieldArgs =
    [[⟨"head1", false, none⟩], [⟨"head2", false, none⟩, ⟨"b", false, some ["head1"]⟩]] := by
  decide

example : incr_struct (Input.structNamed exMissingFields) =
    Except.error (DeriveError.unknownDependency ["nope"]) := rfl

example : (incr_struct (Input.structNamed exTwoHeaders)).isOk = true := by decide

/-! Supporting lemmas about the drop loop. -/

theorem dropTailGo_fst_length {α β : Type} :
    ∀ (ts : List (Option β)) (idx cut : Nat),
    (dropTailGo (α := α) ts idx cut).1.length = ts.length := by
  intro ts
  induction ts with
  | nil => intro idx cut; rfl
  | cons t ts ih =>
    intro idx cut
    by_cases h : cut = 0 <;> simp [dropTailGo, h, ih]

theorem dropTailGo_zero_fst {α β : Type} :
    ∀ (ts : List (Option β)) (idx : Nat),
    (dropTailGo (α := α) ts idx 0).1 = List.replicate ts.length none := by
  intro ts
  induction ts with
  | nil => intro idx; rfl
  | cons t ts ih => intro idx; simp [dropTailGo, ih, List.replicate_succ]

theorem dropTailGo_map_some_snd {α β : Type} :
    ∀ (vs : List β) (idx : Nat),
    (dropTailGo (α := α) (vs.map some) idx 0).2
      = (vs.enumFrom idx).map fun p => Event.tailDrop p.1 p.2 := by
  intro vs
  induction vs with
  | nil => intro idx; rfl
  | cons v vs ih => intro idx; simp [dropTailGo, ih, List.enumFrom]

theorem dropTailGo_skip {α β : Type} :
    ∀ (k : Nat) (ts : List (Option β)) (idx : Nat),
    dropTailGo (α := α) (List.replicate k none ++ ts) idx k
      = (List.replicate k none ++ (dropTailGo (α := α) ts (idx + k) 0).1,
         (dropTailGo (α := α) ts (idx + k) 0).2) := by
  intro k
  induction k with
  | zero => intro ts idx; simp
  | succ k ih =>
    intro ts idx
    have harith : idx + 1 + k = idx + (k + 1) := by omega
    simp [List.replicate_succ, dropTailGo, ih, harith]

/-- Setting the slot just below the `none` block turns
`replicate (m+1) none ++ l` into `replicate m none ++ some v :: l`. -/
theorem set_replicate_concat {β : Type} :
    ∀ (m : Nat) (l : List (Option β)) (v : β),
    (List.replicate (m + 1) (none : Option β) ++ l).set m (some v)
      = List.replicate m none ++ some v :: l := by
  intro m
  induction m with
  | zero => intro l v; rfl
  | succ m ih =>
    intro l v
    simpa [List.replicate_succ] using ih l v

/-! Supporting lemmas about the constructor loop. -/

theorem initGo_iObj {ε α β : Type} (ctors : Ctors ε α β) :
    ∀ (m : Nat) (o : Obj α β),
    (iObj (initGo ctors m o).1).heads = o.heads ∧
    (iObj (initGo ctors m o).1).hdr = o.hdr ∧
    (iObj (initGo ctors m o).1).tails.length = o.tails.length := by
  intro m
  induction m with
  | zero => intro o; exact ⟨rfl, rfl, rfl⟩
  | succ m ih =>
    intro o
    cases hc : ctors m o with
    | ok v =>
      have h := ih { o with tails := o.tails.set m (some v) }
      simpa [initGo, hc] using h
    | error e =>
      simp [initGo, hc, iObj, drop_tail_in_place, dropTailGo_fst_length]

/-- Peeling the first constructor call off a processing-order call list. -/
theorem ctorCalls_cons {α β : Type} (m i : Nat) (h : i ≤ m) :
    (List.range (m + 1 - i)).map (fun j => Event.ctorCall (α := α) (β := β) (m - j))
      = Event.ctorCall m :: ((List.range (m - i)).map fun j => Event.ctorCall (m - 1 - j)) := by
  have hms : m + 1 - i = (m - i) + 1 := by omega
  rw [hms, List.range_succ_eq_map, List.map_cons, List.map_map]
  refine congrArg₂ List.cons (by simp) ?_
  apply List.map_congr_left
  intro j _
  simp only [Function.comp_apply]
  exact congrArg Event.ctorCall (by omega)

/-- Characterization of a failing run of the generated `init` loop.  If the
Tail storage is an all-`none` block of the pending slots followed by built
values, and the loop fails, then the struct comes back with every Tail slot
`none`, the Head fields and the header untouched, and the event trace is the
constructor calls in processing order (reverse declaration order, ending at
the failing declaration index `i`) followed by the drops of exactly the
already-built declaration-order suffix, in declaration order. -/
theorem initGo_fail_spec {ε α β : Type} (ctors : Ctors ε α β) :
    ∀ (m : Nat) (us : List β) (o : Obj α β) (e : ε) (o2 : Obj α β) (evs : List (Event α β)),
    o.tails = List.replicate m none ++ us.map some →
    initGo ctors m o = (IResult.fail e o2, evs) →
    o2.heads = o.heads ∧ o2.hdr = o.hdr ∧
    o2.tails = List.replicate o.tails.length none ∧
    ∃ i vs, i < m ∧ o.tails.length = (i + 1) + List.length vs ∧
      evs = ((List.range (m - i)).map fun j => Event.ctorCall (m - 1 - j))
        ++ ((List.enumFrom (i + 1) vs).map fun p => Event.tailDrop p.1 p.2) := by
  intro m
  induction m with
  | zero =>
    intro us o e o2 evs _ h
    simp [initGo] at h
  | succ m ih =>
    intro us o e o2 evs hts h
    cases hc : ctors m o with
    | ok v =>
      rcases hr : initGo ctors m { o with tails := o.tails.set m (some v) } with ⟨r1, evs1⟩
      simp only [initGo, hc, hr, Prod.mk.injEq] at h
      obtain ⟨h1, h2⟩ := h
      have hset : ({ o with tails := o.tails.set m (some v) } : Obj α β).tails
          = List.replicate m none ++ (v :: us).map some := by
        simp only [hts, List.map_cons]
        exact set_replicate_concat m (us.map some) v
      obtain ⟨hh, hd, ht, i, vs, hi, hlen, hevs⟩ :=
        ih (v :: us) { o with tails := o.tails.set m (some v) } e o2 evs1 hset
          (by rw [hr, h1])
      have hlenset : (o.tails.set m (some v)).length = o.tails.length := List.length_set ..
      have ht2 : o2.tails = List.replicate (o.tails.set m (some v)).length none := ht
      have hlen2 : (o.tails.set m (some v)).length = (i + 1) + List.length vs := hlen
      rw [hlenset] at ht2 hlen2
      refine ⟨hh, hd, ht2, i, vs, by omega, hlen2, ?_⟩
      rw [← h2, hevs, ← List.cons_append]
      congr 1
      have := (ctorCalls_cons (α := α) (β := β) m i (by omega)).symm
      rw [this]
      apply List.map_congr_left
      intro j _
      exact congrArg Event.ctorCall (by omega)
    | error e' =>
      have hd : drop_tail_in_place o (m + 1)
          = ({ o with tails := List.replicate o.tails.length none },
             (List.enumFrom (m + 1) us).map fun p => Event.tailDrop p.1 p.2) := by
        unfold drop_tail_in_place
        rw [hts, dropTailGo_skip (α := α) (m + 1) (us.map some) 0]
        rw [dropTailGo_zero_fst, dropTailGo_map_some_snd]
        simp [hts, ← List.replicate_add]
      simp only [initGo, hc, hd, Prod.mk.injEq, IResult.fail.injEq] at h
      obtain ⟨⟨he, ho2⟩, hevs⟩ := h
      refine ⟨by rw [← ho2], by rw [← ho2], by rw [← ho2], m, us, Nat.lt_succ_self m, ?_, ?_⟩
      · rw [hts]; simp
      · rw [← hevs]
        have h1 : m + 1 - m = 1 := by omega
        have h2 : List.range 1 = [0] := rfl
        rw [h1, h2, List.map_cons, List.map_nil, List.cons_append, List.nil_append]
        exact congrArg₂ List.cons (congrArg Event.ctorCall (by omega)) rfl

/-! Supporting lemmas about `forceGo` and `force_init`. -/

theorem forceGo_evs {ε α β : Type} (ctors : Ctors ε α β) (o : Obj α β)
    (evs0 : List (Event α β)) :
    forceGo ctors o evs0 = ((forceGo ctors o []).1, evs0 ++ (forceGo ctors o []).2) := by
  unfold forceGo
  rcases h : init ctors { o with hdr := Header.initing } with ⟨r, evs⟩
  cases r <;> simp

theorem force_init_ok_hdr {ε α β : Type} (ctors : Ctors ε α β) (o o2 : Obj α β)
    (evs : List (Event α β)) (h : force_init ctors o = (FResult.ok o2, evs)) :
    o2.hdr = Header.inited := by
  have key : ∀ (o' : Obj α β) (evs0 : List (Event α β)),
      forceGo ctors o' evs0 = (FResult.ok o2, evs) → o2.hdr = Header.inited := by
    intro o' evs0 hg
    unfold forceGo at hg
    rcases hi : init ctors { o' with hdr := Header.initing } with ⟨r, evs1⟩
    rw [hi] at hg
    cases r with
    | ok o3 =>
      simp only [Prod.mk.injEq, FResult.ok.injEq] at hg
      rw [← hg.1]
    | fail e o3 => simp at hg
  unfold force_init at h
  cases ho : o.hdr with
  | initing => rw [ho] at h; simp at h
  | uninited => rw [ho] at h; exact key o [] h
  | inited => rw [ho] at h; exact key _ _ h

theorem force_init_fail_hdr {ε α β : Type} (ctors : Ctors ε α β) (o : Obj α β) (e : ε)
    (o2 : Obj α β) (evs : List (Event α β)) (h : force_init ctors o = (FResult.fail e o2, evs)) :
    o2.hdr = Header.initing := by
  have key : ∀ (o' : Obj α β) (evs0 : List (Event α β)),
      forceGo ctors o' evs0 = (FResult.fail e o2, evs) → o2.hdr = Header.initing := by
    intro o' evs0 hg
    unfold forceGo at hg
    rcases hi : init ctors { o' with hdr := Header.initing } with ⟨r, evs1⟩
    rw [hi] at hg
    cases r with
    | ok o3 => simp at hg
    | fail e' o3 =>
      simp only [Prod.mk.injEq, FResult.fail.injEq] at hg
      have hhdr := (initGo_iObj ctors ({ o' with hdr := Header.initing }).tails.length
        { o' with hdr := Header.initing }).2.1
      unfold init at hi
      rw [hi] at hhdr
      simp only [iObj] at hhdr
      rw [← hg.1.2]
      exact hhdr
  unfold force_init at h
  cases ho : o.hdr with
  | initing => rw [ho] at h; simp at h
  | uninited => rw [ho] at h; exact key o [] h
  | inited => rw [ho] at h; exact key _ _ h

/-- C5: for every instance whose state is already `Inited`, `ensure_init`
returns the object unchanged with an empty event trace — zero Tail
constructor invocations, zero drops, no field and no state change — and
after any successful `ensure_init` a second call returns the identical
object with an empty trace. -/
theorem C5_ensure_init_idempotent {ε α β : Type} (ctors : Ctors ε α β) (o : Obj α β) :
    (o.hdr = Header.inited → ensure_init ctors o = (FResult.ok o, [])) ∧
    (∀ (o2 : Obj α β) (evs : List (Event α β)),
      ensure_init ctors o = (FResult.ok o2, evs) →
      ensure_init ctors o2 = (FResult.ok o2, [])) := by
  constructor
  · intro h
    simp [ensure_init, h]
  · intro o2 evs h
    have hdr2 : o2.hdr = Header.inited := by
      unfold ensure_init at h
      cases ho : o.hdr with
      | inited =>
        rw [ho] at h
        simp only [Prod.mk.injEq, FResult.ok.injEq] at h
        rw [← h.1]
        exact ho
      | uninited => rw [ho] at h; exact force_init_ok_hdr ctors o o2 evs h
      | initing => rw [ho] at h; exact force_init_ok_hdr ctors o o2 evs h
    simp [ensure_init, hdr2]

/-- Witness for C5 at the concrete test shape. -/
theorem C5_ensure_init_idempotent_witness :
    ensure_init exCtors exInitedObj = (FResult.ok exInitedObj, []) :=
  (C5_ensure_init_idempotent exCtors exInitedObj).1 rfl

/-- C7: calling `force_init` (directly or through `ensure_init`) on an
instance whose state is `Initing` is the fatal reentrancy panic
`"Recursive call to force_init"`: the object is returned untouched and the
event trace is empty, so no field is constructed or destroyed and no typed
error value is produced. -/
theorem C7_reentrant_force_init_fatal {ε α β : Type} (ctors : Ctors ε α β) (o : Obj α β)
    (h : o.hdr = Header.initing) :
    force_init ctors o = (FResult.fatal "Recursive call to force_init" o, []) ∧
    ensure_init ctors o = (FResult.fatal "Recursive call to force_init" o, []) := by
  constructor
  · simp [force_init, h]
  · simp [ensure_init, force_init, h]

/-- Witness for C7 at a concrete `Initing` instance. -/
theorem C7_reentrant_force_init_fatal_witness :
    force_init exCtors exInitingObj
      = (FResult.fatal "Recursive call to force_init" exInitingObj, []) ∧
    ensure_init exCtors exInitingObj
      = (FResult.fatal "Recursive call to force_init" exInitingObj, []) :=
  C7_reentrant_force_init_fatal exCtors exInitingObj rfl

/-- C6: when a Tail constructor fails inside `force_init`, the returned
instance's lifecycle state is `Initing` — it is not reset to `Uninited` —
so a subsequent `drop_uninit_in_place`, `force_init` or `ensure_init` on
that instance hits the fatal contract-violation (panic) path instead of
being retryable. -/
theorem C6_failed_force_init_poisoned {ε α β : Type} (ctors ctors2 : Ctors ε α β)
    (o : Obj α β) (e : ε) (o2 : Obj α β) (evs : List (Event α β))
    (h : force_init ctors o = (FResult.fail e o2, evs)) :
    o2.hdr = Header.initing ∧
    drop_uninit_in_place o2
      = (DropResult.panicked "drop_uninit_in_place during initialization", []) ∧
    force_init ctors2 o2 = (FResult.fatal "Recursive call to force_init" o2, []) ∧
    ensure_init ctors2 o2 = (FResult.fatal "Recursive call to force_init" o2, []) := by
  have hdr := force_init_fail_hdr ctors o e o2 evs h
  exact ⟨hdr, by simp [drop_uninit_in_place, hdr], by simp [force_init, hdr],
    by simp [ensure_init, force_init, hdr]⟩

/-- Witness for C6 at the concrete failing construction of the test shape. -/
theorem C6_failed_force_init_poisoned_witness :
    (⟨[42, 18], [none, none], Header.initing⟩ : Obj Int Int).hdr = Header.initing ∧
    drop_uninit_in_place (⟨[42, 18], [none, none], Header.initing⟩ : Obj Int Int)
      = (DropResult.panicked "drop_uninit_in_place during initialization", []) ∧
    force_init exCtors (⟨[42, 18], [none, none], Header.initing⟩ : Obj Int Int)
      = (FResult.fatal "Recursive call to force_init"
          (⟨[42, 18], [none, none], Header.initing⟩ : Obj Int Int), []) ∧
    ensure_init exCtors (⟨[42, 18], [none, none], Header.initing⟩ : Obj Int Int)
      = (FResult.fatal "Recursive call to force_init"
          (⟨[42, 18], [none, none], Header.initing⟩ : Obj Int Int), []) :=
  C6_failed_force_init_poisoned exCtors exCtors exObjFail ()
    (⟨[42, 18], [none, none], Header.initing⟩ : Obj Int Int)
    [Event.ctorCall 1, Event.ctorCall 0, Event.tailDrop 1 42] (by decide)

/-- C2: if the k-th Tail constructor in processing order fails during
`force_init` on a fresh instance, then the error value is returned, the
Head fields and their values are untouched, every Tail slot is back to
`none` (exactly the k−1 already-built fields were destroyed, and the trace
shows they were dropped in declaration order — increasing declaration
indices starting right after the failing one — while fields not yet
attempted produce no drop event), and the instance's state is `Initing`,
never `Inited`. -/
theorem C2_rollback_exact {ε α β : Type} (ctors : Ctors ε α β) (o : Obj α β) (e : ε)
    (o2 : Obj α β) (evs : List (Event α β))
    (h0 : o.hdr = Header.uninited)
    (h1 : o.tails = List.replicate o.tails.length none)
    (h2 : force_init ctors o = (FResult.fail e o2, evs)) :
    o2.heads = o.heads ∧ o2.hdr = Header.initing ∧ o2.tails = o.tails ∧
    ∃ (k : Nat) (vs : List β), k = List.length vs + 1 ∧ k ≤ o.tails.length ∧
      evs = ((List.range k).map fun j => Event.ctorCall (o.tails.length - 1 - j))
        ++ ((List.enumFrom (o.tails.length - k + 1) vs).map
              fun p => Event.tailDrop p.1 p.2) := by
  unfold force_init at h2
  rw [h0] at h2
  unfold forceGo at h2
  rcases hi : init ctors { o with hdr := Header.initing } with ⟨r, evs1⟩
  rw [hi] at h2
  cases r with
  | ok o3 => simp at h2
  | fail e1 o3 =>
    simp only [Prod.mk.injEq, FResult.fail.injEq, List.nil_append] at h2
    obtain ⟨⟨he, ho3⟩, hevs⟩ := h2
    unfold init at hi
    have hlen_eq : ({ o with hdr := Header.initing } : Obj α β).tails.length
        = o.tails.length := rfl
    have hts : ({ o with hdr := Header.initing } : Obj α β).tails
        = List.replicate ({ o with hdr := Header.initing } : Obj α β).tails.length none
          ++ ([] : List β).map some := by
      simpa using h1
    rw [hlen_eq] at hi
    obtain ⟨hh, hd, ht, i, vs, hi2, hlen, hevs2⟩ :=
      initGo_fail_spec ctors o.tails.length [] _ e1 o3 evs1 (by simpa using hts) hi
    have hh2 : o2.heads = o.heads := by rw [← ho3]; exact hh
    have hd2 : o2.hdr = Header.initing := by rw [← ho3]; exact hd
    have ht2 : o2.tails = o.tails := by
      rw [← ho3, ht, hlen_eq, ← h1]
    have hlen2 : o.tails.length = i + 1 + List.length vs := by
      rw [← hlen_eq]; exact hlen
    refine ⟨hh2, hd2, ht2, o.tails.length - i, vs, by omega, by omega, ?_⟩
    have hidx : o.tails.length - (o.tails.length - i) + 1 = i + 1 := by omega
    rw [hidx, ← hevs, hevs2]

/-- Witness for C2 at the concrete failing construction of the test shape:
the second constructor in processing order (`init_field_c`) fails, and
exactly the one already-built Tail field `b` is dropped. -/
theorem C2_rollback_exact_witness :
    (⟨[42, 18], [none, none], Header.initing⟩ : Obj Int Int).heads = exObjFail.heads ∧
    (⟨[42, 18], [none, none], Header.initing⟩ : Obj Int Int).hdr = Header.initing ∧
    (⟨[42, 18], [none, none], Header.initing⟩ : Obj Int Int).tails = exObjFail.tails ∧
    ∃ (k : Nat) (vs : List Int), k = List.length vs + 1 ∧ k ≤ exObjFail.tails.length ∧
      ([Event.ctorCall 1, Event.ctorCall 0, Event.tailDrop 1 42] : List (Event Int Int))
        = ((List.range k).map fun j => Event.ctorCall (exObjFail.tails.length - 1 - j))
          ++ ((List.enumFrom (exObjFail.tails.length - k + 1) vs).map
                fun p => Event.tailDrop p.1 p.2) :=
  C2_rollback_exact exCtors exObjFail ()
    (⟨[42, 18], [none, none], Header.initing⟩ : Obj Int Int)
    [Event.ctorCall 1, Event.ctorCall 0, Event.tailDrop 1 42] rfl rfl (by decide)

/-- C4: `force_init` on an `Inited` instance first destroys every Tail
field (`drop_tail_in_place` with cutoff `0`, leaving every Tail slot
`none`), and then behaves exactly like `force_init` on a fresh
`Uninited` instance carrying the current Head values: the result and the
remaining trace are those of a fresh construction from the current Head
fields, so rebuilt Tail fields reflect any Head value changed since the
previous construction, and on full success the state is `Inited`. -/
theorem C4_force_init_resync {ε α β : Type} (ctors : Ctors ε α β) (o : Obj α β)
    (h : o.hdr = Header.inited) :
    (drop_tail_in_place o 0).1.tails = List.replicate o.tails.length none ∧
    force_init ctors o
      = ((force_init ctors
            (⟨o.heads, List.replicate o.tails.length none, Header.uninited⟩ : Obj α β)).1,
         (drop_tail_in_place o 0).2
           ++ (force_init ctors
                (⟨o.heads, List.replicate o.tails.length none, Header.uninited⟩ : Obj α β)).2) ∧
    (∀ (o2 : Obj α β) (evs : List (Event α β)),
      force_init ctors o = (FResult.ok o2, evs) → o2.hdr = Header.inited) := by
  have hzero : (drop_tail_in_place o 0).1
      = { o with tails := List.replicate o.tails.length none } := by
    unfold drop_tail_in_place
    simp [dropTailGo_zero_fst]
  refine ⟨by rw [hzero], ?_, fun o2 evs hh => force_init_ok_hdr ctors o o2 evs hh⟩
  have hmain : force_init ctors o
      = forceGo ctors (drop_tail_in_place o 0).1 (drop_tail_in_place o 0).2 := by
    unfold force_init
    rw [h]
  have hfresh : force_init ctors
        (⟨o.heads, List.replicate o.tails.length none, Header.uninited⟩ : Obj α β)
      = forceGo ctors
          (⟨o.heads, List.replicate o.tails.length none, Header.uninited⟩ : Obj α β) [] := rfl
  have hsame : forceGo ctors (drop_tail_in_place o 0).1 ([] : List (Event α β))
      = forceGo ctors
          (⟨o.heads, List.replicate o.tails.length none, Header.uninited⟩ : Obj α β) [] := by
    rw [hzero]
    rfl
  rw [hmain, forceGo_evs, hsame, hfresh]

/-- Witness for C4 at a concrete `Inited` instance of the test shape whose
Head field `head1` was changed to `100` after the previous construction. -/
theorem C4_force_init_resync_witness :
    (drop_tail_in_place exChangedObj 0).1.tails
      = List.replicate exChangedObj.tails.length none ∧
    force_init exCtors exChangedObj
      = ((force_init exCtors
            (⟨exChangedObj.heads, List.replicate exChangedObj.tails.length none,
              Header.uninited⟩ : Obj Int Int)).1,
         (drop_tail_in_place exChangedObj 0).2
           ++ (force_init exCtors
                (⟨exChangedObj.heads, List.replicate exChangedObj.tails.length none,
                  Header.uninited⟩ : Obj Int Int)).2) ∧
    (∀ (o2 : Obj Int Int) (evs : List (Event Int Int)),
      force_init exCtors exChangedObj = (FResult.ok o2, evs) → o2.hdr = Header.inited) :=
  C4_force_init_resync exCtors exChangedObj rfl

example : force_init exCtors exChangedObj
    = (FResult.ok ⟨[100, 4711], [some 100, some 100], Header.inited⟩,
       [Event.tailDrop 0 42, Event.tailDrop 1 42, Event.ctorCall 1, Event.ctorCall 0]) := by
  decide

/-- C1: evidence against the claimed cleanup of `new_box`/`new_rc` on
constructor failure.  At the failing input of the test suite
(`AStruct::new_box(18, RefCell::new(42))`) both functions do return the
constructor's error, but the final `false` records that ownership of the
heap allocation was never re-established (the `?` operator abandons the
pointer obtained from `Box::into_raw`/`Rc::into_raw`), no
`drop_uninit_in_place` call occurs, and the trace contains no Head field
drop: the storage and the Head values are leaked, contradicting the claim
that the allocation is released via `disposeUninitialized` with the Head
fields destroyed. -/
theorem C1_new_box_new_rc_leak_on_error :
    new_box exCtors exObjFail
      = (FResult.fail () ⟨[42, 18], [none, none], Header.initing⟩,
         [Event.ctorCall 1, Event.ctorCall 0, Event.tailDrop 1 42], false) ∧
    new_rc exCtors exObjFail
      = (FResult.fail () ⟨[42, 18], [none, none], Header.initing⟩,
         [Event.ctorCall 1, Event.ctorCall 0, Event.tailDrop 1 42], false) ∧
    (new_box exCtors exObjFail).2.1.all (fun ev => !isHeadDrop ev) = true ∧
    (new_rc exCtors exObjFail).2.1.all (fun ev => !isHeadDrop ev) = true := by
  exact ⟨by decide, by decide, by decide, by decide⟩

/-- C8: on an `Uninited` instance, `drop_uninit_in_place` drops exactly the
Head fields, in declaration order, followed by the header field, and
touches no Tail slot (no Tail drop event occurs); on an `Inited` or
`Initing` instance it panics with the corresponding message and drops
nothing. -/
theorem C8_drop_uninit_heads_only {α β : Type} (o : Obj α β) :
    (o.hdr = Header.uninited →
      drop_uninit_in_place o
        = (DropResult.ok,
           (o.heads.enum.map fun p => Event.headDrop p.1 p.2) ++ [Event.hdrDrop]) ∧
      ∀ ev ∈ (drop_uninit_in_place o).2, isTailDrop ev = false) ∧
    (o.hdr = Header.inited →
      drop_uninit_in_place o
        = (DropResult.panicked "drop_uninit_in_place on initialized value", [])) ∧
    (o.hdr = Header.initing →
      drop_uninit_in_place o
        = (DropResult.panicked "drop_uninit_in_place during initialization", [])) := by
  refine ⟨?_, ?_, ?_⟩
  · intro h
    refine ⟨by simp [drop_uninit_in_place, h], ?_⟩
    intro ev hev
    simp only [drop_uninit_in_place, h] at hev
    rcases List.mem_append.mp hev with h1 | h2
    · obtain ⟨p, _, hp⟩ := List.mem_map.mp h1
      rw [← hp]
      rfl
    · rw [List.mem_singleton.mp h2]
      rfl
  · intro h
    simp [drop_uninit_in_place, h]
  · intro h
    simp [drop_uninit_in_place, h]

/-! Supporting lemmas about dependency resolution. -/

theorem fb_fst_sub :
    ∀ (cs : List Field) (bs : List String) (f : Field),
    f ∈ (find_borrows_fields cs bs).1 → f ∈ cs := by
  intro cs
  induction cs with
  | nil => intro bs f h; simp [find_borrows_fields] at h
  | cons c cs ih =>
    intro bs f h
    by_cases hmem : c.name ∈ bs
    · simp only [find_borrows_fields, if_pos hmem, List.mem_cons] at h
      rcases h with h | h
      · exact h ▸ List.mem_cons_self c cs
      · exact List.mem_cons_of_mem c (ih _ f h)
    · simp only [find_borrows_fields, if_neg hmem] at h
      exact List.mem_cons_of_mem c (ih _ f h)

theorem fb_snd_sub :
    ∀ (cs : List Field) (bs : List String) (d : String),
    d ∈ (find_borrows_fields cs bs).2 → d ∈ bs := by
  intro cs
  induction cs with
  | nil => intro bs d h; simpa [find_borrows_fields] using h
  | cons c cs ih =>
    intro bs d h
    by_cases hmem : c.name ∈ bs
    · simp only [find_borrows_fields, if_pos hmem] at h
      exact List.mem_of_mem_erase (ih _ d h)
    · simp only [find_borrows_fields, if_neg hmem] at h
      exact ih _ d h

theorem fb_snd_nil_found :
    ∀ (cs : List Field) (bs : List String),
    (find_borrows_fields cs bs).2 = [] → ∀ d ∈ bs, d ∈ cs.map Field.name := by
  intro cs
  induction cs with
  | nil =>
    intro bs h d hd
    simp only [find_borrows_fields] at h
    rw [h] at hd
    simp at hd
  | cons c cs ih =>
    intro bs h d hd
    by_cases hmem : c.name ∈ bs
    · simp only [find_borrows_fields, if_pos hmem] at h
      by_cases hdc : d = c.name
      · simp [hdc]
      · have : d ∈ bs.erase c.name := (List.mem_erase_of_ne hdc).mpr hd
        have := ih _ h d this
        simp [this]
    · simp only [find_borrows_fields, if_neg hmem] at h
      have := ih _ h d hd
      simp [this]

theorem fb_snd_not_found :
    ∀ (cs : List Field) (bs : List String), bs.Nodup →
    ∀ d ∈ (find_borrows_fields cs bs).2, ¬ d ∈ cs.map Field.name := by
  intro cs
  induction cs with
  | nil => intro bs _ d _ h; simp at h
  | cons c cs ih =>
    intro bs hnd d hd
    by_cases hmem : c.name ∈ bs
    · simp only [find_borrows_fields, if_pos hmem] at hd
      have hsub : d ∈ bs.erase c.name := fb_snd_sub cs (bs.erase c.name) d hd
      have hne : d ≠ c.name := ((List.Nodup.mem_erase_iff hnd).mp hsub).1
      have hrest := ih (bs.erase c.name) (hnd.erase c.name) d hd
      simp only [List.map_cons, List.mem_cons]
      rintro (h | h)
      · exact hne h
      · exact hrest h
    · simp only [find_borrows_fields, if_neg hmem] at hd
      have hin : d ∈ bs := fb_snd_sub cs bs d hd
      have hne : d ≠ c.name := fun h => hmem (h ▸ hin)
      have hrest := ih bs hnd d hd
      simp only [List.map_cons, List.mem_cons]
      rintro (h | h)
      · exact hne h
      · exact hrest h

/-- In a successful `initArgsGo` run, every Tail field of the remaining list
passed dependency resolution against the fields processed before it. -/
theorem argsGo_resolves :
    ∀ (rest pre : List Field) (argss : List (List Field)),
    initArgsGo pre rest = Except.ok argss →
    ∀ (i : Nat) (f : Field) (bs : List String),
    rest.get? i = some f → f.borrows = some bs →
    (find_borrows_fields (pre ++ rest.take i) bs.dedup).2 = [] := by
  intro rest
  induction rest with
  | nil => intro pre argss _ i f bs hget; simp at hget
  | cons f0 rest ih =>
    intro pre argss h i f bs hget hbs
    cases hb0 : f0.borrows with
    | none =>
      simp only [initArgsGo, hb0] at h
      cases i with
      | zero =>
        have hf : f0 = f := Option.some.inj hget
        rw [hf, hbs] at hb0
        exact absurd hb0 (by simp)
      | succ j =>
        have := ih (pre ++ [f0]) argss h j f bs hget hbs
        simpa [List.append_assoc] using this
    | some bs0 =>
      simp only [initArgsGo, hb0] at h
      by_cases hr2 : (find_borrows_fields pre bs0.dedup).2 = []
      · rw [if_pos hr2] at h
        cases hrec : initArgsGo (pre ++ [f0]) rest with
        | error m => rw [hrec] at h; simp at h
        | ok args2 =>
          rw [hrec] at h
          cases i with
          | zero =>
            have hf : f0 = f := Option.some.inj hget
            rw [hf, hbs, Option.some.injEq] at hb0
            rw [hb0]
            simpa using hr2
          | succ j =>
            have := ih (pre ++ [f0]) args2 hrec j f bs hget hbs
            simpa [List.append_assoc] using this
      · rw [if_neg hr2] at h
        simp at h

/-- In a successful `initArgsGo` run, every resolved constructor parameter of
the `p`-th Tail field (processing order) is either a previously processed
field, a Head field, or a Tail field at an earlier processing position. -/
theorem argsGo_params_sub :
    ∀ (rest pre : List Field) (argss : List (List Field)),
    initArgsGo pre rest = Except.ok argss →
    ∀ (p : Nat) (ps : List Field), argss.get? p = some ps →
    ∀ f ∈ ps, f ∈ pre ∨ f.borrows = none ∨
      ∃ q, q < p ∧ (rest.filter hasBorrows).get? q = some f := by
  intro rest
  induction rest with
  | nil =>
    intro pre argss h p ps hp
    simp only [initArgsGo, Except.ok.injEq] at h
    rw [← h] at hp
    simp at hp
  | cons f0 rest ih =>
    intro pre argss h p ps hp f hf
    cases hb0 : f0.borrows with
    | none =>
      simp only [initArgsGo, hb0] at h
      have hb0' : hasBorrows f0 = false := by simp [hasBorrows, hb0]
      have := ih (pre ++ [f0]) argss h p ps hp f hf
      rcases this with hin | hnone | ⟨q, hq, hget⟩
      · rcases List.mem_append.mp hin with h1 | h2
        · exact Or.inl h1
        · have : f = f0 := by simpa using h2
          exact Or.inr (Or.inl (this ▸ hb0))
      · exact Or.inr (Or.inl hnone)
      · refine Or.inr (Or.inr ⟨q, hq, ?_⟩)
        rw [List.filter_cons_of_neg (by simp [hb0'])]
        exact hget
    | some bs0 =>
      simp only [initArgsGo, hb0] at h
      by_cases hr2 : (find_borrows_fields pre bs0.dedup).2 = []
      · rw [if_pos hr2] at h
        cases hrec : initArgsGo (pre ++ [f0]) rest with
        | error m => rw [hrec] at h; simp at h
        | ok args2 =>
          rw [hrec] at h
          simp only [Except.ok.injEq] at h
          rw [← h] at hp
          have hb0' : hasBorrows f0 = true := by simp [hasBorrows, hb0]
          cases p with
          | zero =>
            have hps : (find_borrows_fields pre bs0.dedup).1 = ps := by simpa using hp
            rw [← hps] at hf
            exact Or.inl (fb_fst_sub pre bs0.dedup f hf)
          | succ q0 =>
            have hp2 : args2.get? q0 = some ps := by simpa using hp
            have := ih (pre ++ [f0]) args2 hrec q0 ps hp2 f hf
            rcases this with hin | hnone | ⟨q, hq, hget⟩
            · rcases List.mem_append.mp hin with h1 | h2
              · exact Or.inl h1
              · have hff0 : f = f0 := by simpa using h2
                refine Or.inr (Or.inr ⟨0, Nat.succ_pos q0, ?_⟩)
                rw [List.filter_cons_of_pos (by simp [hb0'])]
                rw [hff0]
                rfl
            · exact Or.inr (Or.inl hnone)
            · refine Or.inr (Or.inr ⟨q + 1, by omega, ?_⟩)
              rw [List.filter_cons_of_pos (by simp [hb0'])]
              simpa using hget
      · rw [if_neg hr2] at h
        simp at h

/-- If every Tail field before processing position `i` resolves and the Tail
at position `i` leaves unresolved names, `initArgsGo` aborts with exactly
those names (the first failing Tail wins, via the `?` operator). -/
theorem argsGo_first_fail :
    ∀ (rest pre : List Field) (i : Nat) (f : Field) (bs : List String),
    rest.get? i = some f → f.borrows = some bs →
    (∀ j, j < i → ∀ (f2 : Field) (bs2 : List String),
      rest.get? j = some f2 → f2.borrows = some bs2 →
      (find_borrows_fields (pre ++ rest.take j) bs2.dedup).2 = []) →
    (find_borrows_fields (pre ++ rest.take i) bs.dedup).2 ≠ [] →
    initArgsGo pre rest
      = Except.error ((find_borrows_fields (pre ++ rest.take i) bs.dedup).2) := by
  intro rest
  induction rest with
  | nil => intro pre i f bs hget; simp at hget
  | cons f0 rest ih =>
    intro pre i f bs hget hbs hearlier hmiss
    cases i with
    | zero =>
      have hf : f0 = f := Option.some.inj hget
      subst hf
      simp only [initArgsGo, hbs]
      rw [if_neg (by simpa using hmiss)]
      simp
    | succ j =>
      have hget' : rest.get? j = some f := hget
      have hearlier' : ∀ j2, j2 < j → ∀ (f2 : Field) (bs2 : List String),
          rest.get? j2 = some f2 → f2.borrows = some bs2 →
          (find_borrows_fields ((pre ++ [f0]) ++ rest.take j2) bs2.dedup).2 = [] := by
        intro j2 hj2 f2 bs2 hg2 hb2
        have := hearlier (j2 + 1) (by omega) f2 bs2 hg2 hb2
        simpa [List.append_assoc] using this
      have hmiss' : (find_borrows_fields ((pre ++ [f0]) ++ rest.take j) bs.dedup).2 ≠ [] := by
        intro hc
        apply hmiss
        simpa [List.append_assoc] using hc
      have hres := ih (pre ++ [f0]) j f bs hget' hbs hearlier' hmiss'
      cases hb0 : f0.borrows with
      | none =>
        simp only [initArgsGo, hb0]
        rw [hres]
        simp [List.append_assoc]
      | some bs0 =>
        have h0 := hearlier 0 (Nat.succ_pos j) f0 bs0 rfl hb0
        simp only [initArgsGo, hb0]
        rw [if_pos (by simpa using h0), hres]
        simp [List.append_assoc]

/-- Inversion of a successful derivation: the field list is nonempty, its
last field carries `#[header]`, dependency resolution succeeded, and the
emitted protocol pieces are the ones computed from the processing-order
list. -/
theorem incr_structFields_ok_inv (fs : List Field) (g : Generated)
    (h : incr_structFields fs = Except.ok g) :
    ∃ hf, fs.getLast? = some hf ∧ hf.isHeader = true ∧
      initArgsGo [] (revFields fs) = Except.ok g.initFieldArgs ∧
      g.tails = (revFields fs).filter hasBorrows ∧
      g.heads = (revFields fs).filter (fun f => !hasBorrows f) := by
  unfold incr_structFields at h
  split at h
  · simp at h
  · rename_i header hlast
    split at h
    · rename_i hih
      split at h
      · simp at h
      · rename_i args hargs
        simp only [Except.ok.injEq] at h
        subst h
        exact ⟨header, hlast, hih, by rw [hargs], rfl, rfl⟩
    · simp at h

/-- C3: for every shape that passes dependency resolution, each resolved
constructor parameter of the Tail field at processing position `p` is
either a Head field (no `#[borrows]`) or a Tail field at a strictly earlier
processing position — so construction in processing order never reads an
uninitialized field, because every dependency is declared strictly after
its dependent and processing runs in reverse declaration order. -/
theorem C3_processing_order_safe (fs : List Field) (g : Generated)
    (h : incr_struct (Input.structNamed fs) = Except.ok g) :
    ∀ (p : Nat) (ps : List Field), g.initFieldArgs.get? p = some ps →
    ∀ f ∈ ps, f.borrows = none ∨ ∃ q, q < p ∧ g.tails.get? q = some f := by
  obtain ⟨hf, hlast, hih, hargs, htails, -⟩ := incr_structFields_ok_inv fs g h
  intro p ps hp f hfmem
  have hsub := argsGo_params_sub (revFields fs) [] g.initFieldArgs hargs p ps hp f hfmem
  rcases hsub with hin | hnone | ⟨q, hq, hget⟩
  · simp at hin
  · exact Or.inl hnone
  · refine Or.inr ⟨q, hq, ?_⟩
    rw [htails]
    exact hget

/-- Witness for C3 at the test shape: the second processed Tail field `c`
receives the parameters `head2` (a Head field) and `b` (the Tail field at
processing position 0). -/
theorem C3_processing_order_safe_witness :
    (⟨"head2", false, none⟩ : Field).borrows = none ∨
    ∃ q, q < 1 ∧ exGenerated.tails.get? q = some ⟨"head2", false, none⟩ :=
  C3_processing_order_safe exStructFields exGenerated rfl 1
    [⟨"head2", false, none⟩, ⟨"b", false, some ["head1"]⟩] rfl
    ⟨"head2", false, none⟩ (by simp)

/-- C9: dependency resolution looks each declared borrow name up only among
the fields declared strictly after the Tail field (the header field is
removed before the processing-order list `revFields` is formed, so it is
excluded).  First part: in every successfully derived shape, every
(deduplicated) borrow name of every Tail field is the name of a field
declared strictly after it.  Second part: if every earlier-processed Tail
field resolves and the Tail at processing position `i` has unresolved
names, derivation fails with `unknownDependency` carrying exactly those
names, and each carried name is a declared borrow of that Tail that no
strictly-later-declared field provides.  A failed derivation produces no
`Generated` protocol at all, by the shape of `Except`. -/
theorem C9_dependency_resolution (fs : List Field) :
    (∀ g, incr_struct (Input.structNamed fs) = Except.ok g →
      ∀ (i : Nat) (f : Field) (bs : List String),
      (revFields fs).get? i = some f → f.borrows = some bs →
      ∀ d ∈ bs.dedup, d ∈ ((revFields fs).take i).map Field.name) ∧
    (∀ hf, fs.getLast? = some hf → hf.isHeader = true →
      ∀ (i : Nat) (f : Field) (bs : List String),
      (revFields fs).get? i = some f → f.borrows = some bs →
      (∀ j, j < i → ∀ (f2 : Field) (bs2 : List String),
        (revFields fs).get? j = some f2 → f2.borrows = some bs2 →
        (find_borrows_fields ((revFields fs).take j) bs2.dedup).2 = []) →
      (find_borrows_fields ((revFields fs).take i) bs.dedup).2 ≠ [] →
      incr_struct (Input.structNamed fs)
        = Except.error (DeriveError.unknownDependency
            ((find_borrows_fields ((revFields fs).take i) bs.dedup).2)) ∧
      (∀ d ∈ (find_borrows_fields ((revFields fs).take i) bs.dedup).2,
        d ∈ bs.dedup ∧ ¬ d ∈ ((revFields fs).take i).map Field.name)) := by
  constructor
  · intro g h i f bs hget hbs d hd
    obtain ⟨hf, hlast, hih, hargs, -, -⟩ := incr_structFields_ok_inv fs g h
    have hres := argsGo_resolves (revFields fs) [] g.initFieldArgs hargs i f bs hget hbs
    rw [List.nil_append] at hres
    exact fb_snd_nil_found ((revFields fs).take i) bs.dedup hres d hd
  · intro hf hlast hih i f bs hget hbs hearlier hmiss
    have hearlier2 : ∀ j, j < i → ∀ (f2 : Field) (bs2 : List String),
        (revFields fs).get? j = some f2 → f2.borrows = some bs2 →
        (find_borrows_fields (([] : List Field) ++ (revFields fs).take j) bs2.dedup).2
          = [] := by
      intro j hj f2 bs2 hg2 hb2
      rw [List.nil_append]
      exact hearlier j hj f2 bs2 hg2 hb2
    have hfail := argsGo_first_fail (revFields fs) [] i f bs hget hbs hearlier2
      (by rw [List.nil_append]; exact hmiss)
    rw [List.nil_append] at hfail
    constructor
    · show incr_structFields fs = _
      unfold incr_structFields
      split
      · rename_i hnone
        rw [hlast] at hnone
        exact absurd hnone (by simp)
      · rename_i header hsome
        rw [hlast, Option.some.injEq] at hsome
        subst hsome
        rw [if_pos hih, hfail]
    · intro d hd
      exact ⟨fb_snd_sub _ _ d hd,
        fb_snd_not_found ((revFields fs).take i) bs.dedup (List.nodup_dedup bs) d hd⟩

/-- Witness for C9: the success direction at the test shape (Tail `c`,
processing position 3, all borrows resolve among later-declared fields) and
the failure direction at `exMissingFields` (Tail `c` names `nope`, which no
later field declares). -/
theorem C9_dependency_resolution_witness :
    (∀ d ∈ (["b", "head2"] : List String).dedup,
      d ∈ ((revFields exStructFields).take 3).map Field.name) ∧
    (incr_struct (Input.structNamed exMissingFields)
        = Except.error (DeriveError.unknownDependency
            ((find_borrows_fields ((revFields exMissingFields).take 1)
                (["nope"] : List String).dedup).2)) ∧
      (∀ d ∈ (find_borrows_fields ((revFields exMissingFields).take 1)
                (["nope"] : List String).dedup).2,
        d ∈ (["nope"] : List String).dedup ∧
          ¬ d ∈ ((revFields exMissingFields).take 1).map Field.name)) :=
  ⟨(C9_dependency_resolution exStructFields).1 exGenerated rfl 3
      ⟨"c", false, some ["b", "head2"]⟩ ["b", "head2"] rfl rfl,
   (C9_dependency_resolution exMissingFields).2 ⟨"hdr", true, none⟩ rfl rfl 1
      ⟨"c", false, some ["nope"]⟩ ["nope"] rfl rfl
      (by
        intro j hj f2 bs2 hg2 hb2
        have hj0 : j = 0 := by omega
        subst hj0
        have hf2 : (⟨"head1", false, none⟩ : Field) = f2 := Option.some.inj hg2
        rw [← hf2] at hb2
        exact absurd hb2 (by simp))
      (by decide)⟩

/-- C10 counterexample: a shape with two `#[header]`-marked fields (the
second one last) is accepted by `incr_struct`, so "derivation succeeds only
if the shape has exactly one Lifecycle-marked field" is false: only the
last field is checked, and the earlier `#[header]` field is silently
treated as a Head field. -/
theorem C10_counterexample :
    incr_struct (Input.structNamed exTwoHeaders)
      = Except.ok
          { headerName := "hdr", heads := [⟨"a", true, none⟩], tails := [],
            initFieldArgs := [], dropHeadNames := ["a"], dropTailNames := [] } ∧
    (exTwoHeaders.filter fun f => f.isHeader).length = 2 := ⟨rfl, rfl⟩

/-- C10 (amended): derivation succeeds only if the shape is a struct whose
named-field list is nonempty and whose last field is Lifecycle-marked; a
shape whose last field exists but is not Lifecycle-marked is rejected with
the not-last error naming that field, a shape with no named fields (empty,
tuple or unit struct) is rejected with the missing-Lifecycle-field error,
and enums and unions are rejected with the not-a-struct error.  Earlier
Lifecycle markers are not checked (see the counterexample): a non-last
`#[header]` field is treated as a Head field. -/
theorem C10_header_checks_amended :
    (incr_struct Input.enumData = Except.error DeriveError.notAStruct ∧
     incr_struct Input.unionData = Except.error DeriveError.notAStruct) ∧
    (incr_struct (Input.structNamed []) = Except.error DeriveError.missingHeaderField ∧
     incr_struct Input.structTuple = Except.error DeriveError.missingHeaderField ∧
     incr_struct Input.structUnit = Except.error DeriveError.missingHeaderField) ∧
    (∀ fs g, incr_struct (Input.structNamed fs) = Except.ok g →
      ∃ hf, fs.getLast? = some hf ∧ hf.isHeader = true) ∧
    (∀ fs hf, fs.getLast? = some hf → hf.isHeader = false →
      incr_struct (Input.structNamed fs)
        = Except.error (DeriveError.headerNotLast hf.name)) := by
  refine ⟨⟨rfl, rfl⟩, ⟨rfl, rfl, rfl⟩, ?_, ?_⟩
  · intro fs g h
    obtain ⟨hf, hlast, hih, -, -, -⟩ := incr_structFields_ok_inv fs g h
    exact ⟨hf, hlast, hih⟩
  · intro fs hf hlast hnot
    show incr_structFields fs = _
    unfold incr_structFields
    split
    · rename_i hnone
      rw [hlast] at hnone
      exact absurd hnone (by simp)
    · rename_i header hsome
      rw [hlast, Option.some.injEq] at hsome
      subst hsome
      rw [if_neg (by simp [hnot])]

/-- Witness for the amended C10: the accepted two-header shape has a
Lifecycle-marked last field, and a one-field shape whose last field is not
Lifecycle-marked is rejected naming that field. -/
theorem C10_header_checks_amended_witness :
    (∃ hf, exTwoHeaders.getLast? = some hf ∧ hf.isHeader = true) ∧
    incr_struct (Input.structNamed [⟨"x", false, none⟩])
      = Except.error (DeriveError.headerNotLast "x") :=
  ⟨C10_header_checks_amended.2.2.1 exTwoHeaders
      { headerName := "hdr", heads := [⟨"a", true, none⟩], tails := [],
        initFieldArgs := [], dropHeadNames := ["a"], dropTailNames := [] } rfl,
   C10_header_checks_amended.2.2.2 [⟨"x", false, none⟩] ⟨"x", false, none⟩ rfl rfl⟩

/-- Witness for C8 at concrete instances of the test shape in each state. -/
theorem C8_drop_uninit_heads_only_witness :
    drop_uninit_in_place exObjFail
      = (DropResult.ok, [Event.headDrop 0 42, Event.headDrop 1 18, Event.hdrDrop]) ∧
    drop_uninit_in_place exInitedObj
      = (DropResult.panicked "drop_uninit_in_place on initialized value", []) ∧
    drop_uninit_in_place exInitingObj
      = (DropResult.panicked "drop_uninit_in_place during initialization", []) :=
  ⟨((C8_drop_uninit_heads_only exObjFail).1 rfl).1,
   (C8_drop_uninit_heads_only exInitedObj).2.1 rfl,
   (C8_drop_uninit_heads_only exInitingObj).2.2 rfl⟩

end Incr
